import Mathlib

/-!
Verification of the self-healing backend-discovery client of `simple-crud`
(`cmd/grpc-client-balanced/main.go`): the DNS-polling watcher, the address
fingerprinter, the reconnect mailbox and the request worker.

Strings coming from Go are modelled as their byte sequences (`List Nat`,
each entry below 256); hostnames, which the code manipulates character by
character with ASCII separators, are modelled as `List Char`.
-/

/-! ## SHA-256 (Go `crypto/sha256.Sum256`), over byte lists -/

/-- 2^32, the modulus of all 32-bit word arithmetic in SHA-256. -/
def M32 : Nat := 4294967296

/-- Right rotation of a 32-bit word by `n` bits. -/
def rotr (n x : Nat) : Nat := ((x >>> n) ||| (x <<< (32 - n))) % M32

/-- SHA-256 small sigma 0. -/
def ssig0 (x : Nat) : Nat := (rotr 7 x) ^^^ (rotr 18 x) ^^^ (x >>> 3)

/-- SHA-256 small sigma 1. -/
def ssig1 (x : Nat) : Nat := (rotr 17 x) ^^^ (rotr 19 x) ^^^ (x >>> 10)

/-- SHA-256 big sigma 0. -/
def bsig0 (x : Nat) : Nat := (rotr 2 x) ^^^ (rotr 13 x) ^^^ (rotr 22 x)

/-- SHA-256 big sigma 1. -/
def bsig1 (x : Nat) : Nat := (rotr 6 x) ^^^ (rotr 11 x) ^^^ (rotr 25 x)

/-- SHA-256 choice function; 32-bit complement written as xor with 2^32-1. -/
def chF (x y z : Nat) : Nat := (x &&& y) ^^^ ((x ^^^ (M32 - 1)) &&& z)

/-- SHA-256 majority function. -/
def majF (x y z : Nat) : Nat := (x &&& y) ^^^ (x &&& z) ^^^ (y &&& z)

/-- The 64 SHA-256 round constants (FIPS 180-4), written in decimal. -/
def K256 : List Nat :=
  [1116352408, 1899447441, 3049323471, 3921009573, 961987163, 1508970993,
   2453635748, 2870763221, 3624381080, 310598401, 607225278, 1426881987,
   1925078388, 2162078206, 2614888103, 3248222580, 3835390401, 4022224774,
   264347078, 604807628, 770255983, 1249150122, 1555081692, 1996064986,
   2554220882, 2821834349, 2952996808, 3210313671, 3336571891, 3584528711,
   113926993, 338241895, 666307205, 773529912, 1294757372, 1396182291,
   1695183700, 1986661051, 2177026350, 2456956037, 2730485921, 2820302411,
   3259730800, 3345764771, 3516065817, 3600352804, 4094571909, 275423344,
   430227734, 506948616, 659060556, 883997877, 958139571, 1322822218,
   1537002063, 1747873779, 1955562222, 2024104815, 2227730452, 2361852424,
   2428436474, 2756734187, 3204031479, 3329325298]

/-- The SHA-256 working state: eight 32-bit words. -/
structure Sha256State where
  a : Nat
  b : Nat
  c : Nat
  d : Nat
  e : Nat
  f : Nat
  g : Nat
  h : Nat

/-- The SHA-256 initial hash value (FIPS 180-4), written in decimal. -/
def sha256Init : Sha256State :=
  ⟨1779033703, 3144134277, 1013904242, 2773480762,
   1359893119, 2600822924, 528734635, 1541459225⟩

/-- One SHA-256 compression round with round constant `k` and schedule word `w`. -/
def sha256Round (s : Sha256State) (k w : Nat) : Sha256State :=
  let t1 := (s.h + bsig1 s.e + chF s.e s.f s.g + k + w) % M32
  let t2 := (bsig0 s.a + majF s.a s.b s.c) % M32
  ⟨(t1 + t2) % M32, s.a, s.b, s.c, (s.d + t1) % M32, s.e, s.f, s.g⟩

/-- Big-endian decoding of the `i`-th 32-bit word of a 64-byte block. -/
def blockWord (block : List Nat) (i : Nat) : Nat :=
  (block.getD (4 * i) 0) <<< 24 ||| (block.getD (4 * i + 1) 0) <<< 16 |||
  (block.getD (4 * i + 2) 0) <<< 8 ||| block.getD (4 * i + 3) 0

/-- Message-schedule extension: append words 16..63 to the initial 16 words. -/
def extendSchedule (ws : List Nat) : Nat → List Nat
  | 0 => ws
  | n + 1 =>
    let ws := extendSchedule ws n
    let t := ws.length
    ws ++ [(ssig1 (ws.getD (t - 2) 0) + ws.getD (t - 7) 0 +
            ssig0 (ws.getD (t - 15) 0) + ws.getD (t - 16) 0) % M32]

/-- The 64-entry message schedule of a 64-byte block. -/
def messageSchedule (block : List Nat) : List Nat :=
  extendSchedule ((List.range 16).map (blockWord block)) 48

/-- Compress one 64-byte block into the running hash state. -/
def sha256Block (s : Sha256State) (block : List Nat) : Sha256State :=
  let w := messageSchedule block
  let t := (K256.zip w).foldl (fun st kw => sha256Round st kw.1 kw.2) s
  ⟨(s.a + t.a) % M32, (s.b + t.b) % M32, (s.c + t.c) % M32, (s.d + t.d) % M32,
   (s.e + t.e) % M32, (s.f + t.f) % M32, (s.g + t.g) % M32, (s.h + t.h) % M32⟩

/-- Big-endian bytes of a 64-bit length field. -/
def lenBytes (n : Nat) : List Nat :=
  [(n >>> 56) % 256, (n >>> 48) % 256, (n >>> 40) % 256, (n >>> 32) % 256,
   (n >>> 24) % 256, (n >>> 16) % 256, (n >>> 8) % 256, n % 256]

/-- SHA-256 padding: append 0x80, zero bytes, and the 64-bit bit length. -/
def padMessage (msg : List Nat) : List Nat :=
  msg ++ [0x80] ++ List.replicate ((119 - msg.length % 64) % 64) 0 ++ lenBytes (msg.length * 8)

/-- Split a byte list into 64-byte chunks; the fuel bounds the recursion depth
and is instantiated with the list length, which suffices since every step
consumes at least one byte. -/
def chunks : Nat → List Nat → List (List Nat)
  | 0, _ => []
  | _ + 1, [] => []
  | fuel + 1, x :: xs => (x :: xs).take 64 :: chunks fuel ((x :: xs).drop 64)

/-- Split a padded message into 64-byte blocks. -/
def toBlocks (l : List Nat) : List (List Nat) := chunks l.length l

/-- Big-endian bytes of one 32-bit word. -/
def wordBytes (w : Nat) : List Nat :=
  [(w >>> 24) % 256, (w >>> 16) % 256, (w >>> 8) % 256, w % 256]

/-- The 32-byte digest of a final hash state. -/
def stateBytes (s : Sha256State) : List Nat :=
  wordBytes s.a ++ wordBytes s.b ++ wordBytes s.c ++ wordBytes s.d ++
  wordBytes s.e ++ wordBytes s.f ++ wordBytes s.g ++ wordBytes s.h

/-- SHA-256 of a byte list, as the 32-byte digest.  Models Go `sha256.Sum256`. -/
def sha256 (msg : List Nat) : List Nat :=
  stateBytes ((toBlocks (padMessage msg)).foldl sha256Block sha256Init)

/-! ## Go `encoding/json.Marshal` of a non-nil `[]string`, over byte lists

`json.Marshal` on a string slice emits a JSON array of quoted strings; the
default encoder escapes the quote, the backslash, the control bytes (with
the newline, carriage-return and tab shortcuts) and, for HTML safety, the
bytes of lower-than, greater-than and ampersand.  Bytes at or above 0x80
(continuation bytes of valid multi-byte UTF-8 runes below U+2028, which
covers every address a resolver can return) pass through unchanged. -/

/-- Lowercase hexadecimal digit byte of a value below 16. -/
def hexDigit (n : Nat) : Nat := if n < 10 then 48 + n else 87 + n

/-- Escape one byte of a string the way Go's JSON encoder does. -/
def escapeByte (b : Nat) : List Nat :=
  if b = 34 then [92, 34]
  else if b = 92 then [92, 92]
  else if b = 10 then [92, 110]
  else if b = 13 then [92, 114]
  else if b = 9 then [92, 116]
  else if b < 32 ∨ b = 60 ∨ b = 62 ∨ b = 38 then
    [92, 117, 48, 48, hexDigit (b / 16), hexDigit (b % 16)]
  else [b]

/-- A JSON string literal: quote, escaped bytes, quote. -/
def jsonString (s : List Nat) : List Nat := 34 :: s.flatMap escapeByte ++ [34]

/-- JSON encoding of a (non-nil) slice of strings: bracketed, comma-separated
quoted elements. -/
def jsonMarshal (addresses : List (List Nat)) : List Nat :=
  91 :: List.intercalate [44] (addresses.map jsonString) ++ [93]

/-! ## The fingerprinter and the watcher (`cmd/grpc-client-balanced/main.go`) -/

/-- `hashAddresses` (main.go lines 197-201): SHA-256 over the JSON encoding of
the address list, the digest kept as a raw 32-byte string. -/
def hashAddresses (addresses : List (List Nat)) : List Nat :=
  sha256 (jsonMarshal addresses)

/-- Go string comparison (byte-wise lexicographic, shorter prefix first),
as used by `sort.Strings`. -/
def goStringLe : List Nat → List Nat → Bool
  | [], _ => true
  | _ :: _, [] => false
  | a :: as, b :: bs => if a < b then true else if b < a then false else goStringLe as bs

/-- `sort.Strings(addrs)` (main.go line 271).  Go sorts in place with pdqsort;
since `goStringLe` is a total, transitive and antisymmetric order, every
correct sort returns the same list, so insertion sort is an extensionally
faithful model (the uniqueness lemmas below justify this). -/
def sortStrings (l : List (List Nat)) : List (List Nat) :=
  List.insertionSort (fun a b => goStringLe a b = true) l

/-- The fingerprint the watcher compares between polls (main.go lines 271-272):
sort, then hash. -/
def watcherFingerprint (addrs : List (List Nat)) : List Nat :=
  hashAddresses (sortStrings addrs)

/-- Outcome of one resolution attempt (`resolvePods`): failure, or success with
the returned address list. -/
inductive REvent where
  | failure
  | success (addrs : List (List Nat))

/-- A reconnect signal, tagged by what triggered it: the consecutive-failure
threshold (main.go line 263) or a fingerprint change (line 276). -/
inductive Signal where
  | threshold
  | change
deriving DecidableEq

/-- The watcher's loop-local state (main.go lines 235-236): the last known
fingerprint (a Go string, initially empty) and the consecutive-failure
counter (initially zero). -/
structure WatcherState where
  lastHash : List Nat
  consecutiveFail : Nat
deriving DecidableEq

/-- The watcher's state at startup: empty `lastHash`, zero failures. -/
def initWatcher : WatcherState := ⟨[], 0⟩

/-- One iteration of the `dnsWatcher` loop body (main.go lines 254-278),
given the outcome of this iteration's resolution: on failure the counter is
incremented and, at three, a threshold signal is emitted and the counter
reset; on success the counter is reset and a change signal is emitted
exactly when the fingerprint of the sorted addresses differs from the last
known one. -/
def watcherStep (s : WatcherState) : REvent → WatcherState × List Signal
  | .failure =>
    let f := s.consecutiveFail + 1
    if 3 ≤ f then (⟨s.lastHash, 0⟩, [.threshold])
    else (⟨s.lastHash, f⟩, [])
  | .success addrs =>
    let nh := watcherFingerprint addrs
    if nh ≠ s.lastHash then (⟨nh, 0⟩, [.change])
    else (⟨s.lastHash, 0⟩, [])

/-- A run of the watcher over a list of resolution outcomes, collecting every
emitted signal in order. -/
def watcherRun (s : WatcherState) : List REvent → WatcherState × List Signal
  | [] => (s, [])
  | e :: es =>
    let step := watcherStep s e
    let rest := watcherRun step.1 es
    (rest.1, step.2 ++ rest.2)

/-! ## The reconnect mailbox (`notify := make(chan struct..., 1)`, main.go line 347) -/

/-- Capacity of the notify channel. -/
def notifyCap : Nat := 1

/-- Result of a Go channel send: the value is enqueued, or the sender blocks. -/
inductive SendResult where
  | delivered (pending : Nat)
  | blocked
deriving DecidableEq

/-- The watcher's send statement on the notify channel (main.go lines 263 and
276): a plain buffered-channel send, not wrapped in a select with a default
branch, so it enqueues when a slot is free and otherwise blocks the sender
until the receiver drains the channel. -/
def notifySend (pending : Nat) : SendResult :=
  if pending < notifyCap then .delivered (pending + 1) else .blocked

/-- The worker's non-blocking receive (`case <-notify:` inside a select with a
default branch, main.go lines 296 and 300): returns the new queue length and
whether a signal was taken. -/
def notifyTryRecv (pending : Nat) : Nat × Bool :=
  if 0 < pending then (pending - 1, true) else (pending, false)

/-! ## The connection manager and the worker -/

/-- The package-level connection state (main.go lines 190-191): the `conn`
handle and the `client` stub, both nil at startup.  Handles are named by
numbers. -/
structure Globals where
  conn : Option Nat
  client : Option Nat
deriving DecidableEq

/-- `connect` (main.go lines 210-224), with the outcome of `grpc.NewClient`
supplied as an oracle: on error the multi-assignment leaves `conn` nil and
returns the error with `client` untouched; on success both `conn` and
`client` are set to the new handle. -/
def connectG (g : Globals) (result : Option Nat) : Globals × Bool :=
  match result with
  | none => ({ conn := none, client := g.client }, false)
  | some h => ({ conn := some h, client := some h }, true)

/-- `disconnect` (main.go lines 226-231): calls Close on a non-nil `conn`
(reported by the boolean) and assigns neither global. -/
def disconnectG (g : Globals) : Globals × Bool :=
  match g.conn with
  | some _ => (g, true)
  | none => (g, false)

/-- Which select branch one worker iteration took. -/
inductive WorkerBranch where
  | shutdown
  | reconnect
  | steady
deriving DecidableEq

/-- Observable outcome of one worker iteration: the branch taken, the final
globals, the signals left in the mailbox, how many remote calls were issued,
and the sleep performed (in milliseconds), if any. -/
structure IterOutcome where
  branch : WorkerBranch
  g : Globals
  pending : Nat
  calls : Nat
  sleptMs : Option Nat
deriving DecidableEq

/-- One iteration of the `grpcWorker` loop (main.go lines 291-330).  The Go
select runs exactly one case: the Done case when cancelled, else the notify
case when a signal is pending (reconnect: disconnect then connect, no call,
no sleep), else the default case (one `GetAll` call if `client` is non-nil,
then a sleep of `rand.Intn(max)+1` milliseconds, with `randV` the oracle for
the `rand.Intn` draw). -/
def workerIteration (g : Globals) (pending : Nat) (cancelled : Bool)
    (connResult : Option Nat) (randV : Nat) : IterOutcome :=
  if cancelled then ⟨.shutdown, g, pending, 0, none⟩
  else
    match notifyTryRecv pending with
    | (p1, true) =>
      let g1 := (disconnectG g).1
      let g2 := (connectG g1 connResult).1
      ⟨.reconnect, g2, p1, 0, none⟩
    | (_, false) =>
      let calls := if g.client.isSome then 1 else 0
      ⟨.steady, g, pending, calls, some (randV + 1)⟩

/-! ## Hostname cleaning in the watcher (main.go lines 237-243) -/

/-- The scheme marker the watcher strips from the configured target. -/
def schemeMarker : List Char := ['d', 'n', 's', ':', '/', '/']

/-- Go `strings.Split` on a one-character separator; always returns at least
one part. -/
def goSplit (sep : Char) : List Char → List (List Char)
  | [] => [[]]
  | c :: rest =>
    if c = sep then [] :: goSplit sep rest
    else
      match goSplit sep rest with
      | [] => [[c]]
      | part :: ps => (c :: part) :: ps

/-- Go `strings.TrimLeft(s, "/")`: drop every leading slash. -/
def goTrimLeftSlash (s : List Char) : List Char := s.dropWhile (fun c => c = '/')

/-- The hostname derivation of `dnsWatcher` (main.go lines 237-243): if the
target starts with the scheme marker, strip the marker and the following
slashes; then keep only what precedes the first colon (index 0 of the
colon-split). -/
def cleanHostname (host : List Char) : List Char :=
  let c :=
    if schemeMarker.isPrefixOf host
    then goTrimLeftSlash (host.drop schemeMarker.length)
    else host
  (goSplit ':' c).headI

/-! ## Helper lemmas -/

theorem goStringLe_total (a b : List Nat) : goStringLe a b = true ∨ goStringLe b a = true := by
  induction a generalizing b with
  | nil => left; rfl
  | cons x xs ih =>
    cases b with
    | nil => right; rfl
    | cons y ys =>
      rcases Nat.lt_trichotomy x y with h | h | h
      · left; simp [goStringLe, h]
      · subst h
        rcases ih ys with ht | ht
        · left; simp [goStringLe, ht]
        · right; simp [goStringLe, ht]
      · right; simp [goStringLe, h]

theorem goStringLe_trans (a b c : List Nat) (hab : goStringLe a b = true)
    (hbc : goStringLe b c = true) : goStringLe a c = true := by
  induction a generalizing b c with
  | nil => rfl
  | cons x xs ih =>
    cases b with
    | nil => simp [goStringLe] at hab
    | cons y ys =>
      cases c with
      | nil => simp [goStringLe] at hbc
      | cons z zs =>
        simp only [goStringLe] at hab hbc ⊢
        by_cases hxy : x < y
        · by_cases hyz : y < z
          · simp [show x < z by omega]
          · by_cases hzy : z < y
            · simp [hyz, hzy] at hbc
            · simp [show x < z by omega]
        · by_cases hyx : y < x
          · simp [hxy, hyx] at hab
          · have hx : x = y := by omega
            subst hx
            by_cases hyz : x < z
            · simp [hyz]
            · by_cases hzy : z < x
              · simp [hyz, hzy] at hbc
              · simp [hxy] at hab
                simp [hyz, hzy] at hbc ⊢
                exact ih ys zs hab hbc

theorem goStringLe_antisymm (a b : List Nat) (hab : goStringLe a b = true)
    (hba : goStringLe b a = true) : a = b := by
  induction a generalizing b with
  | nil =>
    cases b with
    | nil => rfl
    | cons y ys => simp [goStringLe] at hba
  | cons x xs ih =>
    cases b with
    | nil => simp [goStringLe] at hab
    | cons y ys =>
      simp only [goStringLe] at hab hba
      by_cases hxy : x < y
      · simp [show ¬ y < x by omega, hxy] at hba
      · by_cases hyx : y < x
        · simp [hxy, hyx] at hab
        · have hx : x = y := by omega
          subst hx
          simp [hxy] at hab hba
          rw [ih ys hab hba]

instance : IsTotal (List Nat) (fun a b => goStringLe a b = true) := ⟨goStringLe_total⟩

instance : IsTrans (List Nat) (fun a b => goStringLe a b = true) :=
  ⟨fun a b c => goStringLe_trans a b c⟩

instance : IsAntisymm (List Nat) (fun a b => goStringLe a b = true) :=
  ⟨fun a b => goStringLe_antisymm a b⟩

theorem sortStrings_perm (l : List (List Nat)) : (sortStrings l).Perm l :=
  List.perm_insertionSort _ l

theorem sortStrings_sorted (l : List (List Nat)) :
    List.Sorted (fun a b => goStringLe a b = true) (sortStrings l) :=
  List.sorted_insertionSort _ l

/-- Two resolution results that are permutations of each other sort to the
same list: the sorted permutation under a total antisymmetric order is
unique.  This is also what makes modelling Go's in-place sort by insertion
sort faithful. -/
theorem sortStrings_eq_of_perm (l1 l2 : List (List Nat)) (h : l1.Perm l2) :
    sortStrings l1 = sortStrings l2 :=
  List.eq_of_perm_of_sorted
    ((sortStrings_perm l1).trans (h.trans (sortStrings_perm l2).symm))
    (sortStrings_sorted l1) (sortStrings_sorted l2)

/-- The SHA-256 digest always has 32 bytes, whatever the message. -/
theorem sha256_length (msg : List Nat) : (sha256 msg).length = 32 := by
  simp [sha256, stateBytes, wordBytes]

theorem goSplit_ne_nil (sep : Char) (s : List Char) : goSplit sep s ≠ [] := by
  induction s with
  | nil => simp [goSplit]
  | cons c rest ih =>
    simp only [goSplit]
    split
    · simp
    · cases h : goSplit sep rest <;> simp

theorem goSplit_headI (sep : Char) (s : List Char) :
    (goSplit sep s).headI = s.takeWhile (fun c => c != sep) := by
  induction s with
  | nil => rfl
  | cons c rest ih =>
    by_cases h : c = sep
    · simp [goSplit, h, List.takeWhile_cons]
    · cases hs : goSplit sep rest with
      | nil => exact absurd hs (goSplit_ne_nil sep rest)
      | cons part ps =>
        have hpart : part = rest.takeWhile (fun c => c != sep) := by
          have := ih
          rw [hs] at this
          simpa using this
        simp [goSplit, h, hs, List.takeWhile_cons, hpart]

theorem takeWhile_until_colon (h p : List Char) (hc : ∀ c ∈ h, c ≠ ':') :
    (h ++ ':' :: p).takeWhile (fun c => c != ':') = h := by
  induction h with
  | nil => simp [List.takeWhile_cons]
  | cons c cs ih =>
    have hcne : c ≠ ':' := hc c (List.mem_cons_self c cs)
    simp [List.takeWhile_cons, hcne, ih fun d hd => hc d (List.mem_cons_of_mem c hd)]

/-! ## The claims -/

/-- C1: in the watcher loop, each resolution failure increments the failure
counter; when the counter reaches 3 (three consecutive failures, no
intervening success) exactly one reconnect signal is emitted and the counter
is reset to 0; any success resets the counter to 0, so fewer than 3
consecutive failures followed by a success never emit a threshold-triggered
signal. -/
theorem c1_failure_threshold :
    (∀ s : WatcherState, s.consecutiveFail + 1 < 3 →
      watcherStep s .failure = (⟨s.lastHash, s.consecutiveFail + 1⟩, [])) ∧
    (∀ s : WatcherState, s.consecutiveFail = 2 →
      watcherStep s .failure = (⟨s.lastHash, 0⟩, [Signal.threshold])) ∧
    (∀ (s : WatcherState) (addrs : List (List Nat)),
      (watcherStep s (.success addrs)).1.consecutiveFail = 0 ∧
      Signal.threshold ∉ (watcherStep s (.success addrs)).2) ∧
    (∀ s : WatcherState, s.consecutiveFail = 0 →
      watcherRun s [.failure, .failure, .failure] = (⟨s.lastHash, 0⟩, [Signal.threshold])) ∧
    (∀ k, k < 3 → ∀ s : WatcherState, s.consecutiveFail = 0 →
      ∀ addrs, Signal.threshold ∉ (watcherRun s (List.replicate k .failure ++ [.success addrs])).2) := by
  refine ⟨fun s h => ?_, fun s h => ?_, fun s addrs => ?_, fun s h => ?_, fun k hk s h addrs => ?_⟩
  · simp only [watcherStep]
    rw [if_neg (by omega)]
  · simp [watcherStep, h]
  · constructor <;> (simp only [watcherStep]; split <;> simp)
  · obtain ⟨lh, cf⟩ := s
    simp only at h
    subst h
    simp [watcherRun, watcherStep]
  · obtain ⟨lh, cf⟩ := s
    simp only at h
    subst h
    interval_cases k <;>
      (simp only [List.replicate, List.cons_append, List.nil_append,
        watcherRun, watcherStep]
       norm_num
       split <;> simp)

/-- C1 witness: the threshold behavior evaluated at concrete states. -/
theorem c1_failure_threshold_witness :
    watcherStep ⟨[], 0⟩ REvent.failure = (⟨[], 1⟩, []) ∧
    watcherStep ⟨[], 2⟩ REvent.failure = (⟨[], 0⟩, [Signal.threshold]) ∧
    watcherRun ⟨[], 0⟩ [REvent.failure, REvent.failure, REvent.failure]
      = (⟨[], 0⟩, [Signal.threshold]) ∧
    Signal.threshold ∉
      (watcherRun ⟨[], 0⟩ (List.replicate 2 REvent.failure ++ [REvent.success []])).2 :=
  ⟨c1_failure_threshold.1 ⟨[], 0⟩ (by decide),
   c1_failure_threshold.2.1 ⟨[], 2⟩ rfl,
   c1_failure_threshold.2.2.2.1 ⟨[], 0⟩ rfl,
   c1_failure_threshold.2.2.2.2 2 (by decide) ⟨[], 0⟩ rfl []⟩

/-- C2 counterexample: the watcher's send on the notify channel is a plain
buffered-channel send; when a signal is already pending (one signal queued,
the channel's single slot full) the send blocks the watcher instead of
being skipped, refuting the claim that every watcher send is non-blocking
and dropped on a full slot. -/
theorem c2_blocking_send_counterexample :
    notifySend 1 = SendResult.blocked ∧ notifyCap = 1 := by decide

/-- C2 amended: the mailbox holds at most one pending signal (a capacity-1
channel: a send delivers only onto a free slot, and blocks exactly when the
slot is full), but the watcher's send is blocking, not dropping — with a
signal pending, the watcher waits for the worker to drain the mailbox
instead of continuing its loop. -/
theorem c2_amended_capacity_and_blocking :
    (∀ p q, p ≤ notifyCap → notifySend p = SendResult.delivered q → q ≤ notifyCap) ∧
    (∀ p, (notifyTryRecv p).1 ≤ p) ∧
    (∀ p, notifySend p = SendResult.blocked ↔ notifyCap ≤ p) := by
  refine ⟨fun p q hp hd => ?_, fun p => ?_, fun p => ?_⟩
  · simp only [notifySend, notifyCap] at hd ⊢
    split at hd
    · cases hd
      omega
    · cases hd
  · simp only [notifyTryRecv]
    split <;> omega
  · simp only [notifySend, notifyCap]
    split <;> rename_i hcond
    · constructor
      · intro hcontra
        cases hcontra
      · omega
    · simp
      omega

/-- C2 amended witness: evaluated at a free and at a full mailbox. -/
theorem c2_amended_capacity_and_blocking_witness :
    (1 : Nat) ≤ notifyCap ∧ (notifySend 1 = SendResult.blocked ↔ notifyCap ≤ 1) :=
  ⟨c2_amended_capacity_and_blocking.1 0 1 (by decide) (by decide),
   c2_amended_capacity_and_blocking.2.2 1⟩

/-- C3 counterexample: with a reconnect signal pending and a handle present,
the worker iteration that receives the signal issues zero remote calls —
the select runs only the notify case, so call issuance does not happen in
the same iteration as the claim states. -/
theorem c3_same_iteration_counterexample :
    (Globals.client ⟨some 1, some 1⟩).isSome = true ∧
    (workerIteration ⟨some 1, some 1⟩ 1 false (some 2) 0).calls = 0 := by decide

/-- C3 amended: an iteration that receives a reconnect signal performs
disconnect-then-connect and returns to the top of the loop without issuing
a call (and without sleeping); calls are issued only in iterations in which
no signal is pending and the process is not cancelled. -/
theorem c3_amended_reconnect_defers_call :
    (∀ (g : Globals) (pending : Nat) (connResult : Option Nat) (v : Nat), 0 < pending →
      workerIteration g pending false connResult v =
        ⟨.reconnect, (connectG (disconnectG g).1 connResult).1, pending - 1, 0, none⟩) ∧
    (∀ (g : Globals) (pending : Nat) (cancelled : Bool) (connResult : Option Nat) (v : Nat),
      0 < (workerIteration g pending cancelled connResult v).calls →
      (workerIteration g pending cancelled connResult v).branch = WorkerBranch.steady ∧
      pending = 0 ∧ cancelled = false ∧ g.client.isSome = true ∧
      (workerIteration g pending cancelled connResult v).calls = 1) := by
  constructor
  · intro g pending connResult v hp
    simp [workerIteration, notifyTryRecv, hp]
  · intro g pending cancelled connResult v hcalls
    by_cases hc : cancelled
    · simp [workerIteration, hc] at hcalls
    · by_cases hp : 0 < pending
      · simp [workerIteration, notifyTryRecv, hc, hp] at hcalls
      · by_cases hcl : g.client.isSome
        · simp_all [workerIteration, notifyTryRecv]
        · simp [workerIteration, notifyTryRecv, hc, hp, hcl] at hcalls

/-- C3 amended witness: a reconnect iteration at a concrete state, and a
steady iteration issuing a call. -/
theorem c3_amended_reconnect_defers_call_witness :
    workerIteration ⟨none, some 5⟩ 1 false (some 7) 3 =
      ⟨WorkerBranch.reconnect, ⟨some 7, some 7⟩, 0, 0, none⟩ ∧
    (workerIteration ⟨none, some 5⟩ 0 false none 3).branch = WorkerBranch.steady :=
  ⟨c3_amended_reconnect_defers_call.1 ⟨none, some 5⟩ 1 (some 7) 3 (by decide),
   (c3_amended_reconnect_defers_call.2 ⟨none, some 5⟩ 0 false none 3 (by decide)).1⟩

/-- C4 counterexample: the fingerprinter never de-duplicates, so a list
containing an address twice fingerprints differently from the list
containing it once, refuting membership-as-sets invariance. -/
theorem c4_duplicates_counterexample :
    watcherFingerprint [[97], [97]] ≠ watcherFingerprint [[97]] := by decide

/-- C4 amended: the fingerprint is invariant under permutations (identical
multiset membership, duplicates preserved); duplicate entries are not
removed, so two lists equal as sets but not as multisets can fingerprint
differently. -/
theorem c4_amended_multiset_not_set_invariance :
    (∀ l1 l2 : List (List Nat), l1.Perm l2 → watcherFingerprint l1 = watcherFingerprint l2) ∧
    watcherFingerprint [[97], [97]] ≠ watcherFingerprint [[97]] :=
  ⟨fun l1 l2 h => congrArg hashAddresses (sortStrings_eq_of_perm l1 l2 h), by decide⟩

/-- C4 amended witness: permutation invariance at a concrete pair. -/
theorem c4_amended_multiset_not_set_invariance_witness :
    watcherFingerprint [[49], [50]] = watcherFingerprint [[50], [49]] :=
  c4_amended_multiset_not_set_invariance.1 [[49], [50]] [[50], [49]]
    (List.Perm.swap [50] [49] [])

/-- C5: the fingerprint computed by the watcher (lexicographic ascending sort,
canonical JSON encoding, SHA-256 digest) is identical on any address list
and any permutation of it. -/
theorem c5_fingerprint_permutation_invariant (l1 l2 : List (List Nat))
    (h : l1.Perm l2) : watcherFingerprint l1 = watcherFingerprint l2 :=
  congrArg hashAddresses (sortStrings_eq_of_perm l1 l2 h)

/-- C5 witness: two orderings of the same two addresses fingerprint alike. -/
theorem c5_fingerprint_permutation_invariant_witness :
    watcherFingerprint [[49, 48], [49]] = watcherFingerprint [[49], [49, 48]] :=
  c5_fingerprint_permutation_invariant [[49, 48], [49]] [[49], [49, 48]]
    (List.Perm.swap [49] [49, 48] [])

/-- C6 counterexample: a failed connect during a reconnect does not leave the
worker handle-less — the stale client stub from the earlier successful
connect survives (only `conn` is assigned nil), and the next steady
iteration still issues a call instead of skipping call issuance. -/
theorem c6_stale_handle_counterexample :
    (workerIteration ⟨some 1, some 1⟩ 1 false none 0).g.client = some 1 ∧
    (workerIteration ⟨some 1, some 1⟩ 1 false none 0).g.conn = none ∧
    (workerIteration (workerIteration ⟨some 1, some 1⟩ 1 false none 0).g
      0 false none 0).calls = 1 := by decide

/-- C6 amended: a connect error assigns nil to `conn` and returns the error
but leaves `client` untouched; the worker therefore skips call issuance
after a failed connect only when `client` was still unset (as after a
failed initial connect), not after a failed reconnect that follows a
successful connect. -/
theorem c6_amended_connect_error_keeps_client :
    (∀ g : Globals, connectG g none = (⟨none, g.client⟩, false)) ∧
    (∀ (g : Globals) (v : Nat), g.client = none →
      (connectG g none).1.client = none ∧
      (workerIteration (connectG g none).1 0 false none v).calls = 0) := by
  refine ⟨fun g => rfl, fun g v h => ?_⟩
  constructor
  · simp [connectG, h]
  · simp [workerIteration, notifyTryRecv, connectG, h]

/-- C6 amended witness: a failed initial connect at a concrete state leads to
a call-free iteration. -/
theorem c6_amended_connect_error_keeps_client_witness :
    (workerIteration (connectG ⟨none, none⟩ none).1 0 false none 0).calls = 0 :=
  (c6_amended_connect_error_keeps_client.2 ⟨none, none⟩ 0 rfl).2

/-- C7: in a worker iteration with no connection handle and no pending
signal, zero remote calls are issued and the jittered backoff sleep still
happens (no busy-spin while disconnected). -/
theorem c7_no_handle_no_busy_spin (g : Globals) (cr : Option Nat) (v : Nat)
    (hc : g.client = none) :
    (workerIteration g 0 false cr v).calls = 0 ∧
    (workerIteration g 0 false cr v).sleptMs = some (v + 1) := by
  constructor <;> simp [workerIteration, notifyTryRecv, hc]

/-- C7 witness: the handle-less steady iteration at a concrete state. -/
theorem c7_no_handle_no_busy_spin_witness :
    (workerIteration ⟨none, none⟩ 0 false none 4).calls = 0 ∧
    (workerIteration ⟨none, none⟩ 0 false none 4).sleptMs = some 5 :=
  c7_no_handle_no_busy_spin ⟨none, none⟩ none 4 rfl

/-- C8: the hostname passed to resolution is the configured target with a
leading scheme marker (and the slashes following it) removed and everything
from the first colon onward removed: a target of the form
dns:///host:port resolves exactly host, and a target host:port resolves
exactly host. -/
theorem c8_hostname_cleaning (h p : List Char)
    (hcolon : ∀ c ∈ h, c ≠ ':') (hslash : h.head? ≠ some '/') :
    cleanHostname (schemeMarker ++ '/' :: (h ++ ':' :: p)) = h ∧
    (schemeMarker.isPrefixOf (h ++ ':' :: p) = false →
      cleanHostname (h ++ ':' :: p) = h) := by
  have hsplit : (goSplit ':' (h ++ ':' :: p)).headI = h := by
    rw [goSplit_headI, takeWhile_until_colon h p hcolon]
  constructor
  · have hpre : schemeMarker.isPrefixOf (schemeMarker ++ '/' :: (h ++ ':' :: p)) = true :=
      List.isPrefixOf_iff_prefix.mpr (List.prefix_append _ _)
    have htrim : goTrimLeftSlash ('/' :: (h ++ ':' :: p)) = h ++ ':' :: p := by
      cases h with
      | nil => simp [goTrimLeftSlash, List.dropWhile_cons]
      | cons c cs =>
        have hcs : c ≠ '/' := fun he => hslash (by simp [he])
        simp [goTrimLeftSlash, List.dropWhile_cons, hcs]
    simp only [cleanHostname, hpre, if_true, List.drop_left, htrim, hsplit]
  · intro hnp
    simp only [cleanHostname, hnp, Bool.false_eq_true, if_false, hsplit]

/-- C8 witness: the two example shapes at a concrete host and port. -/
theorem c8_hostname_cleaning_witness :
    cleanHostname (schemeMarker ++ '/' :: (['h', 'o', 's', 't'] ++ ':' :: ['8', '0']))
      = ['h', 'o', 's', 't'] ∧
    cleanHostname (['h', 'o', 's', 't'] ++ ':' :: ['8', '0']) = ['h', 'o', 's', 't'] :=
  ⟨(c8_hostname_cleaning ['h', 'o', 's', 't'] ['8', '0'] (by decide) (by decide)).1,
   (c8_hostname_cleaning ['h', 'o', 's', 't'] ['8', '0'] (by decide) (by decide)).2
     (by decide)⟩

/-- C9: in every worker iteration reaching the backoff step, the sleep is
exactly the random draw plus one millisecond, hence in the closed interval
from 1 to the configured ceiling whenever the draw is below the ceiling. -/
theorem c9_backoff_range (g : Globals) (cr : Option Nat) (v maxMs : Nat)
    (hv : v < maxMs) :
    (workerIteration g 0 false cr v).sleptMs = some (v + 1) ∧
    1 ≤ v + 1 ∧ v + 1 ≤ maxMs := by
  refine ⟨?_, by omega, by omega⟩
  simp [workerIteration, notifyTryRecv]

/-- C9 witness: the backoff at a concrete draw below a concrete ceiling. -/
theorem c9_backoff_range_witness :
    (workerIteration ⟨none, none⟩ 0 false none 4).sleptMs = some 5 ∧
    1 ≤ 4 + 1 ∧ 4 + 1 ≤ 10 :=
  c9_backoff_range ⟨none, none⟩ none 4 10 (by decide)

/-- C10: on the first successful resolution after watcher startup a reconnect
signal is always emitted, whatever the resolved addresses: the last-known
fingerprint starts empty and every digest is a nonempty (32-byte) string,
so the first success always compares as a change. -/
theorem c10_first_success_always_signals (addrs : List (List Nat)) :
    (watcherStep initWatcher (.success addrs)).2 = [Signal.change] ∧
    (watcherStep initWatcher (.success addrs)).1.lastHash = watcherFingerprint addrs := by
  have hne : watcherFingerprint addrs ≠ [] := by
    intro hcontra
    have hlen := sha256_length (jsonMarshal (sortStrings addrs))
    rw [watcherFingerprint, hashAddresses] at hcontra
    rw [hcontra] at hlen
    simp at hlen
  constructor <;> simp [watcherStep, initWatcher, hne]
